import Mathlib

set_option linter.unusedVariables false

/-! Shallow embedding of the ZOMP command-and-control fabric
(src/zomp_cnc.py, the controller, and src/zompie.py, the agent).

Python strings are modelled as lists of characters (`Str`); the string
operations the sources use (`find`, `split`, `strip`, `int`, f-strings,
`join`) are modelled by explicit recursive functions.  Sockets are
modelled as lists of received chunks, where the end of the list (or an
empty chunk) is a zero-byte receive, i.e. a closed connection.  Uncaught
Python exceptions are modelled with `Except PyErr`. -/

/-- Python strings, as lists of characters. -/
abbrev Str := List Char

/-- The characters of a Lean string literal. -/
def strL (s : String) : Str := s.data

/-- The line separator `"\r\n"`. -/
def crlfL : Str := ['\r', '\n']

/-- The end-of-header signal `"\r\n\r\n"` (`self.signal` in both buffers). -/
def sigL : Str := ['\r', '\n', '\r', '\n']

/-- Split at the first occurrence of the (nonempty) separator `sep` in `s`:
models Python's `s.find(sep)` with the parts before and after the separator;
`none` when the separator does not occur. -/
def breakSub (sep : Str) : Str → Option (Str × Str)
  | [] => none
  | c :: rest =>
    if sep ≠ [] ∧ (c :: rest).take sep.length = sep then
      some ([], (c :: rest).drop sep.length)
    else (breakSub sep rest).map (fun p => (c :: p.1, p.2))

/-- Python `s.split("\r\n")`. -/
def pySplitCRLF : Str → List Str
  | [] => [[]]
  | c :: rest =>
    if (c :: rest).take 2 = crlfL then
      match rest with
      | [] => [[c]]
      | _ :: rest2 => [] :: pySplitCRLF rest2
    else
      match pySplitCRLF rest with
      | [] => [[c]]
      | h :: t => (c :: h) :: t

/-- Python `s.split(" ")`. -/
def pySplitSpace : Str → List Str
  | [] => [[]]
  | c :: rest =>
    if c = ' ' then [] :: pySplitSpace rest
    else
      match pySplitSpace rest with
      | [] => [[c]]
      | h :: t => (c :: h) :: t

/-- Python `s.split(" ", 2)`. -/
def splitSpace2 (s : Str) : List Str :=
  match breakSub (strL " ") s with
  | none => [s]
  | some (a, r1) =>
    match breakSub (strL " ") r1 with
    | none => [a, r1]
    | some (b, r2) => [a, b, r2]

/-- Python `s.split(sep)[1]` as an `Option` (`none` models the `IndexError`
raised when the separator does not occur). -/
def pyIndex1Split (sep s : Str) : Option Str :=
  (breakSub sep s).map fun p =>
    match breakSub sep p.2 with
    | none => p.2
    | some q => q.1

/-- The characters Python `str.strip()` removes. -/
def pyIsSpace (c : Char) : Bool :=
  c = ' ' || c = '\t' || c = '\n' || c = '\r' || c = '\x0b' || c = '\x0c'

/-- Python `s.strip()`. -/
def pyStrip (s : Str) : Str :=
  ((s.dropWhile pyIsSpace).reverse.dropWhile pyIsSpace).reverse

/-- Value of a decimal digit character. -/
def digitVal (c : Char) : Nat := c.toNat - '0'.toNat

/-- Accumulating decimal value of a digit string. -/
def digitsValAux (acc : Nat) : Str → Nat
  | [] => acc
  | c :: s => digitsValAux (10 * acc + digitVal c) s

/-- Decimal value of a digit string. -/
def digitsVal (s : Str) : Nat := digitsValAux 0 s

/-- The digit character for `n < 10`. -/
def digitChar (n : Nat) : Char := Char.ofNat ('0'.toNat + n)

/-- Fuelled decimal printer; the fuel bounds the number of digits. -/
def natReprAux : Nat → Nat → Str → Str
  | 0, _, acc => acc
  | fuel + 1, n, acc =>
    if n < 10 then digitChar n :: acc
    else natReprAux fuel (n / 10) (digitChar (n % 10) :: acc)

/-- Python `str(n)` for a natural number (decimal representation), as used by
the f-string `Content-Length: {len(report)}`. -/
def natRepr (n : Nat) : Str := natReprAux (n + 1) n []

/-- Python `int(s)`: strip whitespace, optional sign, decimal digits;
`none` models the `ValueError` on anything else. -/
def pyInt (s : Str) : Option Int :=
  match pyStrip s with
  | [] => none
  | c :: ds =>
    if c = '-' then
      if ds ≠ [] ∧ ds.all Char.isDigit then some (-(digitsVal ds : Int)) else none
    else if c = '+' then
      if ds ≠ [] ∧ ds.all Char.isDigit then some ((digitsVal ds : Int)) else none
    else if (c :: ds).all Char.isDigit then some ((digitsVal (c :: ds) : Int))
    else none

/-- `"\r\n".join(lines)` — used to state header framing. -/
def joinCRLF : List Str → Str
  | [] => []
  | [l] => l
  | l1 :: l2 :: ls => l1 ++ crlfL ++ joinCRLF (l2 :: ls)

/-- Python `" ".join(lines)`. -/
def joinSpace : List Str → Str
  | [] => []
  | [l] => l
  | l1 :: l2 :: ls => l1 ++ ' ' :: joinSpace (l2 :: ls)

/-- ASCII lower-casing of one character (Python `str.casefold` on the
console's ASCII commands). -/
def toLowerC (c : Char) : Char :=
  if 'A' ≤ c ∧ c ≤ 'Z' then Char.ofNat (c.toNat + 32) else c

/-- ASCII upper-casing of one character (Python `str.upper` on ASCII). -/
def toUpperC (c : Char) : Char :=
  if 'a' ≤ c ∧ c ≤ 'z' then Char.ofNat (c.toNat - 32) else c

/-- Python `s.casefold()` restricted to ASCII. -/
def toLowerStr (s : Str) : Str := s.map toLowerC

/-- Python `s.upper()` restricted to ASCII. -/
def toUpperStr (s : Str) : Str := s.map toUpperC

/-- Python `code.startswith("0")`. -/
def startsWith0 : Str → Bool
  | c :: _ => c = '0'
  | [] => false

/-- Whether a string starts with a carriage return. -/
def headCR : Str → Bool
  | c :: _ => c = '\r'
  | [] => false

/-- The string is nonempty and its last character is not Python whitespace
(so `strip()` leaves its end alone). -/
def lastNonSpace (s : Str) : Bool :=
  match s.getLast? with
  | some c => !pyIsSpace c
  | none => false

/-- zompie.py `makeZOMPResponse` (lines 78–95): encode one agent→controller
response; `report` is the optional body, appended only when nonempty
(Python's `if report:`). -/
def makeZOMPResponse (code status_message : Str) (script_invocation : Str := [])
    (report : Str := []) (version : Str := strL "1.0") : Str :=
  let response :=
    strL "ZOMP/" ++ version ++ strL " " ++ code ++ strL " " ++ status_message ++ crlfL
  let response :=
    if startsWith0 code = false then
      response ++ (script_invocation ++ crlfL
        ++ (strL "Content-Length: " ++ natRepr report.length ++ crlfL))
    else response
  let response := response ++ crlfL
  if report ≠ [] then response ++ report else response

/-- zomp_cnc.py `makeZOMPRequest` (lines 96–111): encode one controller→agent
command.  The Python `match` has no default case, so an unknown command
leaves `code` unbound and raises `NameError`: modelled as `none`. -/
def makeZOMPRequest (command script_invocation : Str)
    (version : Str := strL "1.0") : Option Str :=
  let code :=
    if toLowerStr command = strL "run" then some (strL "1")
    else if toLowerStr command = strL "stop" then some (strL "2")
    else if toLowerStr command = strL "report" then some (strL "3")
    else none
  code.map fun code =>
    strL "ZOMP/" ++ version ++ strL " " ++ code ++ strL " " ++ toUpperStr command ++ crlfL
      ++ script_invocation ++ crlfL ++ crlfL

/-- zomp_cnc.py `ACCEPT_MSG`. -/
def ACCEPT_MSG : Str := strL "ZOMP/1.0 0 ACCEPT\r\n\r\n"

/-- zomp_cnc.py `NOT_UNDERSTOOD`. -/
def NOT_UNDERSTOOD : Str := strL "ZOMP/1.0 5 NOT UNDERSTOOD\r\n\r\n"

/-- zompie.py `READY_MSG`. -/
def READY_MSG : Str := strL "ZOMP/1.0 00 Ready to be registered\r\n\r\n"

/-- The mutable fields of zomp_cnc.py `ZOMPResponseBuffer` (lines 18–25). -/
structure CtrlState where
  buf : Str
  code : Str
  status_message : Str
  script_invocation : Str
  num_chars : Int
deriving DecidableEq

/-- A fresh `ZOMPResponseBuffer`. -/
def initCtrl : CtrlState := ⟨[], [], [], [], 0⟩

/-- The uncaught Python exceptions reachable in the modelled code. -/
inductive PyErr
  | valueError
  | indexError
  | keyError
deriving DecidableEq

deriving instance DecidableEq for Except

/-- Outcome of one `bufferMessages` call: the messages sent on the socket,
the Python return value (or an uncaught exception), the buffer state left
behind, and the unread remainder of the receive stream. -/
structure DecodeOut where
  sent : List Str
  result : Except PyErr (Option Str)
  state : CtrlState
  rest : List Str
deriving DecidableEq

/-- The body-reading loop of `ZOMPResponseBuffer.bufferMessages`
(zomp_cnc.py lines 70–78): keep receiving until the buffer holds `n`
characters; a zero-byte receive (end of `chunks`, or an empty chunk)
makes the call return `None`. -/
def readBody : List Str → Str → Int → Option Str × Str × List Str
  | chunks, buf, n =>
    if (buf.length : Int) < n then
      match chunks with
      | [] => (none, buf, [])
      | c :: rest => if c = [] then (none, buf, rest) else readBody rest (buf ++ c) n
    else (some buf, buf, chunks)

/-- zomp_cnc.py `ZOMPResponseBuffer.bufferMessages` (lines 27–78), the
controller-side decoder.  One receive per loop iteration while in the header
phase; the header is parsed inside a `try` that only guards the status-line
unpack, so the two-element unpack of the remaining header lines, the
`split(': ')[1]` index and the `int(...)` conversion raise uncaught
exceptions (`Except.error`). -/
def decodeCtrl : List Str → CtrlState → DecodeOut
  | chunks, st =>
    if st.num_chars ≤ 0 then
      match chunks with
      | [] => ⟨[], .ok none, st, []⟩
      | c :: rest =>
        if c = [] then ⟨[], .ok none, st, rest⟩
        else
          let buf := st.buf ++ c
          match breakSub sigL buf with
          | none => decodeCtrl rest { st with buf := buf }
          | some (header, after) =>
            let lines := pySplitCRLF header
            let st1 := { st with buf := after }
            match splitSpace2 (pyStrip (lines.headD [])) with
            | [_version, code, msg] =>
              let st2 := { st1 with code := code, status_message := msg }
              if code = strL "00" then ⟨[ACCEPT_MSG], .ok none, st2, rest⟩
              else if code = strL "01" ∨ code = strL "02" then ⟨[], .ok none, st2, rest⟩
              else
                match lines.tail with
                | [script_line, content_length] =>
                  let st3 := { st2 with script_invocation := script_line }
                  match pyIndex1Split (strL ": ") content_length with
                  | none => ⟨[], .error .indexError, st3, rest⟩
                  | some numStr =>
                    match pyInt numStr with
                    | none => ⟨[], .error .valueError, st3, rest⟩
                    | some n =>
                      let st4 := { st3 with num_chars := n }
                      if code ≠ strL "12" ∧ code ≠ strL "30" then ⟨[], .ok none, st4, rest⟩
                      else if st4.num_chars > 0 then
                        match readBody rest st4.buf st4.num_chars with
                        | (some b, buf2, rest2) => ⟨[], .ok (some b), { st4 with buf := buf2 }, rest2⟩
                        | (none, buf2, rest2) => ⟨[], .ok none, { st4 with buf := buf2 }, rest2⟩
                      else decodeCtrl rest st4
                | _ => ⟨[], .error .valueError, st2, rest⟩
            | _ => ⟨[NOT_UNDERSTOOD], .ok none, st1, rest⟩
    else
      match readBody chunks st.buf st.num_chars with
      | (some b, buf2, rest2) => ⟨[], .ok (some b), { st with buf := buf2 }, rest2⟩
      | (none, buf2, rest2) => ⟨[], .ok none, { st with buf := buf2 }, rest2⟩

/-- The decoded `(code, text, invocation, body)` tuple of one
controller-side decode from a fresh buffer (body `[]` when the call returns
without a body). -/
def decodeTupleCtrl (chunks : List Str) : Except PyErr (Str × Str × Str × Str) :=
  let o := decodeCtrl chunks initCtrl
  o.result.map fun r =>
    (o.state.code, o.state.status_message, o.state.script_invocation, r.getD [])

/-- The mutable fields of zompie.py `ZOMPRequestBuffer` (lines 14–22). -/
structure AgentBuf where
  buf : Str
  code : Str
  command : Str
  script_invocation : Str
  filepath : Str
  args : List Str
deriving DecidableEq

/-- A fresh `ZOMPRequestBuffer`. -/
def initAgentBuf : AgentBuf := ⟨[], [], [], [], [], []⟩

/-- Outcome of one agent-side `bufferMessages` call: the responses sent on
the socket, the Python return value, the buffer state, and the unread
remainder of the receive stream. -/
structure AgentDecodeOut where
  sent : List Str
  result : Option Str
  state : AgentBuf
  rest : List Str
deriving DecidableEq

/-- zompie.py `ZOMPRequestBuffer.bufferMessages` (lines 23–76), the
agent-side decoder.  `fsExists` models `os.path.exists` on the agent's
working directory. -/
def decodeAgent (fsExists : Str → Bool) : List Str → AgentBuf → AgentDecodeOut
  | [], st => ⟨[], none, st, []⟩
  | c :: rest, st =>
    if c = [] then ⟨[], none, st, rest⟩
    else
      let buf := st.buf ++ c
      match breakSub sigL buf with
      | none => decodeAgent fsExists rest { st with buf := buf }
      | some (header, after) =>
        let lines := pySplitCRLF header
        let st1 := { st with buf := after }
        match splitSpace2 (pyStrip (lines.headD [])) with
        | [_version, code, command] =>
          let script_line := lines.tail
          let st2 := { st1 with code := code, command := command }
          if code ≠ strL "9" ∧ code ≠ strL "0" ∧ script_line = [] then
            ⟨[makeZOMPResponse (strL "01") (strL "Bad request")], none, st2, rest⟩
          else if code = strL "9" then ⟨[], none, st2, rest⟩
          else if code = strL "5" then ⟨[], none, st2, rest⟩
          else if code = strL "0" then ⟨[], none, st2, rest⟩
          else if code = strL "1" ∨ code = strL "2" ∨ code = strL "3" then
            let script_invocation := joinSpace script_line
            let args := pySplitSpace script_invocation
            let scriptname := args.headD []
            let args := (strL "./" ++ scriptname) :: args.tail
            let filepath := strL "./" ++ scriptname
            let st3 := { st2 with script_invocation := script_invocation,
                                  args := args, filepath := filepath }
            if fsExists filepath = false then
              ⟨[makeZOMPResponse (strL "02") (strL "Script not found")], none, st3, rest⟩
            else ⟨[], some script_invocation, st3, rest⟩
          else ⟨[], some st2.script_invocation, st2, rest⟩
        | _ => ⟨[makeZOMPResponse (strL "01") (strL "Bad request")], none, st1, rest⟩

/-- The agent's task table and report cache (zompie.py `main`, lines
108–110): `processes` maps an invocation key to its task's `is_alive()`
status, `reports` maps an invocation key to its cached output. -/
structure AgentState where
  processes : List (Str × Bool)
  reports : List (Str × Str)
deriving DecidableEq

/-- Python `k in d` / `d[k]` on a dict modelled as an association list. -/
def lookupA {α : Type} (k : Str) : List (Str × α) → Option α
  | [] => none
  | (k1, v) :: t => if k1 = k then some v else lookupA k t

/-- Python `d[k] = v` (overwrite or append). -/
def insertA {α : Type} (k : Str) (v : α) : List (Str × α) → List (Str × α)
  | [] => [(k, v)]
  | (k1, v1) :: t => if k1 = k then (k, v) :: t else (k1, v1) :: insertA k v t

/-- Python `del d[k]`. -/
def eraseA {α : Type} (k : Str) : List (Str × α) → List (Str × α)
  | [] => []
  | (k1, v1) :: t => if k1 = k then t else (k1, v1) :: eraseA k t

/-- The observable actions of one iteration of the agent's serve loop. -/
inductive Effect
  | send (msg : Str)
  | chmod (arg : Str)
  | spawn (key : Str)
  | terminate (key : Str)
deriving DecidableEq

/-- zompie.py `storeResult` (lines 97–98), run in the background task:
`output` is what `subprocess.check_output` did — `ok` the captured stdout,
`error` a raised `CalledProcessError` (nonzero exit), in which case the
dictionary assignment never executes. -/
def storeResult (script_invocation : Str) (output : Except Unit Str)
    (result_dict : List (Str × Str)) : List (Str × Str) :=
  match output with
  | .ok out => insertA script_invocation out result_dict
  | .error _ => result_dict

/-- zompie.py `main`, the RUN/STOP/REPORT dispatch (lines 115–148), run when
`bufferMessages` returned a (nonempty) invocation, i.e. the script exists.
`arg0` is `buffer.args[0]` (`"./" + scriptname`).  A spawned task is
recorded as alive; an uncaught `KeyError` (REPORT of a dead task with no
cached report) aborts the iteration with no effects. -/
def handleCommand (code script_invocation arg0 : Str) (st : AgentState) :
    Except PyErr (List Effect × AgentState) :=
  if code = strL "1" then
    if lookupA script_invocation st.processes = some true then
      .ok ([.send (makeZOMPResponse (strL "11") (strL "Ignore, script already running")
              script_invocation)], st)
    else
      let pre : List Effect :=
        match lookupA script_invocation st.reports with
        | some rep =>
          [.send (makeZOMPResponse (strL "12") (strL "OK, returning existing report")
              script_invocation rep)]
        | none =>
          [.chmod arg0,
           .send (makeZOMPResponse (strL "10") (strL "OK, running script") script_invocation)]
      .ok (pre ++ [.spawn script_invocation],
           { st with processes := insertA script_invocation true st.processes })
  else if code = strL "2" then
    if lookupA script_invocation st.processes = some true then
      .ok ([.terminate script_invocation,
            .send (makeZOMPResponse (strL "20") (strL "OK, stopping script") script_invocation)],
           { st with processes := eraseA script_invocation st.processes })
    else if (lookupA script_invocation st.reports).isSome then
      .ok ([.send (makeZOMPResponse (strL "22") (strL "Ignore, script completed running")
              script_invocation)], st)
    else
      .ok ([.send (makeZOMPResponse (strL "21") (strL "Ignore, script not currently running")
              script_invocation)], st)
  else if code = strL "3" then
    match lookupA script_invocation st.processes with
    | some alive =>
      if alive then
        .ok ([.send (makeZOMPResponse (strL "31") (strL "No report, waiting on completion")
                script_invocation)], st)
      else
        match lookupA script_invocation st.reports with
        | some rep =>
          .ok ([.send (makeZOMPResponse (strL "30") (strL "OK, reporting")
                  script_invocation rep)], st)
        | none => .error .keyError
    | none =>
      .ok ([.send (makeZOMPResponse (strL "32") (strL "No report, not running script")
              script_invocation)], st)
  else .ok ([], st)

/-- The per-connection state of a controller-side receiver task
(zomp_cnc.py `handleResponses`, lines 135–145): the response buffer, the
unread receive stream, and the report files written so far. -/
structure CtrlLoop where
  bufSt : CtrlState
  chunks : List Str
  files : List (Str × Str)
deriving DecidableEq

/-- Whether a receiver task is still looping or has crashed on an uncaught
exception.  `handleResponses` has no return statement, so these are the
only possibilities. -/
inductive LoopOutcome
  | running (s : CtrlLoop)
  | crashed (e : PyErr)
deriving DecidableEq

/-- zomp_cnc.py `handleResponses` (lines 135–145) run for `fuel` loop
iterations: decode one message; when it is truthy, write it to the report
file named by the zombie id and invocation and reset `num_chars` and `buf`;
then loop unconditionally. -/
def handleResponsesRun (zombie_id : Str) : Nat → CtrlLoop → LoopOutcome
  | 0, s => .running s
  | fuel + 1, s =>
    let o := decodeCtrl s.chunks s.bufSt
    match o.result with
    | .error e => .crashed e
    | .ok r =>
      match r with
      | some msg =>
        if msg ≠ [] then
          handleResponsesRun zombie_id fuel
            ⟨{ o.state with num_chars := 0, buf := [] }, o.rest,
             insertA (zombie_id ++ strL " " ++ o.state.script_invocation ++ strL ".txt")
               msg s.files⟩
        else handleResponsesRun zombie_id fuel ⟨o.state, o.rest, s.files⟩
      | none => handleResponsesRun zombie_id fuel ⟨o.state, o.rest, s.files⟩

/-! ### Lemmas about the string model -/

theorem sigL_eq : sigL = '\r' :: ['\n', '\r', '\n'] := rfl

theorem crlfL_eq : crlfL = '\r' :: ['\n'] := rfl

theorem strL_space_eq : strL " " = ' ' :: [] := rfl

theorem breakSub_nil (sep : Str) : breakSub sep [] = none := rfl

theorem breakSub_cons_ne (c0 : Char) (sep1 : Str) (c : Char) (s : Str) (h : c ≠ c0) :
    breakSub (c0 :: sep1) (c :: s)
      = (breakSub (c0 :: sep1) s).map (fun p => (c :: p.1, p.2)) := by
  simp only [breakSub]
  rw [if_neg]
  rintro ⟨-, htake⟩
  simp only [List.length_cons, List.take_succ_cons, List.cons.injEq] at htake
  exact h htake.1

theorem breakSub_append_left (c0 : Char) (sep1 A s : Str) (hA : c0 ∉ A) :
    breakSub (c0 :: sep1) (A ++ s)
      = (breakSub (c0 :: sep1) s).map (fun p => (A ++ p.1, p.2)) := by
  induction A with
  | nil =>
    rw [List.nil_append]
    cases hb : breakSub (c0 :: sep1) s <;> simp [hb]
  | cons a A ih =>
    have ha : a ≠ c0 := by rintro rfl; exact hA (List.mem_cons_self _ _)
    have hA2 : c0 ∉ A := fun hm => hA (List.mem_cons_of_mem _ hm)
    rw [List.cons_append, breakSub_cons_ne c0 sep1 a _ ha, ih hA2]
    cases hb : breakSub (c0 :: sep1) s <;> simp [hb]

theorem breakSub_prefix (sep s : Str) (hsep : sep ≠ []) :
    breakSub sep (sep ++ s) = some ([], s) := by
  obtain ⟨c, sep1, rfl⟩ : ∃ c sep1, sep = c :: sep1 := by
    cases sep with
    | nil => exact absurd rfl hsep
    | cons c t => exact ⟨c, t, rfl⟩
  rw [List.cons_append]
  simp only [breakSub]
  rw [if_pos]
  · rw [← List.cons_append, List.drop_left]
  · refine ⟨by simp, ?_⟩
    rw [← List.cons_append, List.take_left]

theorem breakSub_not_mem (c0 : Char) (sep1 A : Str) (hA : c0 ∉ A) :
    breakSub (c0 :: sep1) A = none := by
  have := breakSub_append_left c0 sep1 A [] hA
  simpa using this

theorem breakSub_cons_of_take_ne (sep : Str) (c : Char) (s : Str)
    (h : (c :: s).take sep.length ≠ sep) :
    breakSub sep (c :: s) = (breakSub sep s).map (fun p => (c :: p.1, p.2)) := by
  simp only [breakSub]
  rw [if_neg]
  rintro ⟨-, htake⟩
  exact h htake

theorem breakSub_sig_crlf (s : Str) (h : headCR s = false) :
    breakSub sigL (crlfL ++ s) = (breakSub sigL s).map (fun p => (crlfL ++ p.1, p.2)) := by
  have htake : (('\r' :: '\n' :: s) : Str).take sigL.length ≠ sigL := by
    have he : (('\r' :: '\n' :: s) : Str).take sigL.length = '\r' :: '\n' :: s.take 2 := rfl
    rw [he, sigL_eq]
    intro heq
    simp only [List.cons.injEq, true_and] at heq
    cases s with
    | nil => exact absurd heq (by simp)
    | cons c t =>
      have hc : c ≠ '\r' := by simpa [headCR] using h
      have h2 : ((c :: t) : Str).take 2 = c :: t.take 1 := rfl
      rw [h2] at heq
      simp only [List.cons.injEq] at heq
      exact hc heq.1
  show breakSub sigL ('\r' :: '\n' :: s)
      = (breakSub sigL s).map (fun p => ('\r' :: '\n' :: p.1, p.2))
  rw [breakSub_cons_of_take_ne _ _ _ htake]
  have htake2 : (('\n' :: s) : Str).take sigL.length ≠ sigL := by
    have he : (('\n' :: s) : Str).take sigL.length = '\n' :: s.take 3 := rfl
    rw [he, sigL_eq]
    intro heq
    simp only [List.cons.injEq] at heq
    exact absurd heq.1 (by decide)
  rw [breakSub_cons_of_take_ne _ _ _ htake2]
  cases breakSub sigL s <;> simp

theorem pySplitCRLF_ne_nil : ∀ s : Str, pySplitCRLF s ≠ []
  | [] => by simp [pySplitCRLF]
  | c :: rest => by
    unfold pySplitCRLF
    split
    · split <;> simp
    · split <;> simp

theorem pySplitCRLF_noCR (A : Str) (hA : '\r' ∉ A) : pySplitCRLF A = [A] := by
  induction A with
  | nil => rfl
  | cons a A ih =>
    have ha : a ≠ '\r' := by rintro rfl; exact hA (List.mem_cons_self _ _)
    have hA2 : '\r' ∉ A := fun hm => hA (List.mem_cons_of_mem _ hm)
    unfold pySplitCRLF
    rw [if_neg, ih hA2]
    intro htake
    have he : ((a :: A) : Str).take 2 = a :: A.take 1 := rfl
    rw [he, crlfL_eq] at htake
    simp only [List.cons.injEq] at htake
    exact ha htake.1

theorem pySplitCRLF_cons (A s : Str) (hA : '\r' ∉ A) :
    pySplitCRLF (A ++ crlfL ++ s) = A :: pySplitCRLF s := by
  induction A with
  | nil =>
    show pySplitCRLF ('\r' :: '\n' :: s) = [] :: pySplitCRLF s
    conv_lhs => unfold pySplitCRLF
    rw [if_pos (show List.take 2 ('\r' :: '\n' :: s) = crlfL from rfl)]
  | cons a A ih =>
    have ha : a ≠ '\r' := by rintro rfl; exact hA (List.mem_cons_self _ _)
    have hA2 : '\r' ∉ A := fun hm => hA (List.mem_cons_of_mem _ hm)
    have hcond : ¬(List.take 2 (a :: (A ++ crlfL ++ s)) = crlfL) := by
      intro htake
      have he : List.take 2 (a :: (A ++ crlfL ++ s)) = a :: (A ++ crlfL ++ s).take 1 := rfl
      rw [he, crlfL_eq] at htake
      simp only [List.cons.injEq] at htake
      exact ha htake.1
    show pySplitCRLF (a :: (A ++ crlfL ++ s)) = (a :: A) :: pySplitCRLF s
    conv_lhs => unfold pySplitCRLF
    rw [if_neg hcond, ih hA2]

theorem joinCRLF_cons_cons (l1 l2 : Str) (ls : List Str) :
    joinCRLF (l1 :: l2 :: ls) = l1 ++ crlfL ++ joinCRLF (l2 :: ls) := rfl

theorem joinCRLF_single (l : Str) : joinCRLF [l] = l := rfl

theorem headCR_append_left (l x : Str) (hne : l ≠ []) (hcr : '\r' ∉ l) :
    headCR (l ++ x) = false := by
  cases l with
  | nil => exact absurd rfl hne
  | cons c t =>
    have hc : c ≠ '\r' := by rintro rfl; exact hcr (List.mem_cons_self _ _)
    simp [headCR, hc]

theorem joinCRLF_shape (l : Str) (ls : List Str) : ∃ x, joinCRLF (l :: ls) = l ++ x := by
  cases ls with
  | nil => exact ⟨[], by simp [joinCRLF]⟩
  | cons l2 ls2 =>
    exact ⟨crlfL ++ joinCRLF (l2 :: ls2), by rw [joinCRLF_cons_cons, List.append_assoc]⟩

theorem headCR_joinCRLF (l : Str) (ls : List Str) (x : Str) (hne : l ≠ [])
    (hcr : '\r' ∉ l) : headCR (joinCRLF (l :: ls) ++ x) = false := by
  obtain ⟨y, hy⟩ := joinCRLF_shape l ls
  rw [hy, List.append_assoc]
  exact headCR_append_left l (y ++ x) hne hcr

theorem breakSub_sig_join (lines : List Str) (tail : Str)
    (h : ∀ l ∈ lines, l ≠ [] ∧ '\r' ∉ l) (hne : lines ≠ []) :
    breakSub sigL (joinCRLF lines ++ (sigL ++ tail)) = some (joinCRLF lines, tail) := by
  induction lines with
  | nil => exact absurd rfl hne
  | cons l ls ih =>
    have hl := h l (List.mem_cons_self _ _)
    cases ls with
    | nil =>
      rw [joinCRLF_single, sigL_eq, breakSub_append_left '\r' _ l _ hl.2,
        breakSub_prefix _ _ (by simp)]
      simp [sigL_eq]
    | cons l2 ls2 =>
      have hls : ∀ x ∈ l2 :: ls2, x ≠ [] ∧ '\r' ∉ x :=
        fun x hx => h x (List.mem_cons_of_mem _ hx)
      have hl2 := hls l2 (List.mem_cons_self _ _)
      rw [joinCRLF_cons_cons, List.append_assoc, List.append_assoc]
      rw [show sigL = '\r' :: ['\n', '\r', '\n'] from rfl,
        breakSub_append_left '\r' _ l _ hl.2]
      rw [← show sigL = '\r' :: ['\n', '\r', '\n'] from rfl]
      rw [breakSub_sig_crlf _ (headCR_joinCRLF l2 ls2 _ hl2.1 hl2.2)]
      rw [ih hls (by simp)]
      simp [List.append_assoc]

theorem pySplitCRLF_join (lines : List Str) (h : ∀ l ∈ lines, l ≠ [] ∧ '\r' ∉ l)
    (hne : lines ≠ []) : pySplitCRLF (joinCRLF lines) = lines := by
  induction lines with
  | nil => exact absurd rfl hne
  | cons l ls ih =>
    have hl := h l (List.mem_cons_self _ _)
    cases ls with
    | nil => rw [joinCRLF_single]; exact pySplitCRLF_noCR l hl.2
    | cons l2 ls2 =>
      have hls : ∀ x ∈ l2 :: ls2, x ≠ [] ∧ '\r' ∉ x :=
        fun x hx => h x (List.mem_cons_of_mem _ hx)
      rw [joinCRLF_cons_cons, pySplitCRLF_cons l _ hl.2, ih hls (by simp)]

theorem breakSub_space_mid (A s : Str) (hA : ' ' ∉ A) :
    breakSub (strL " ") (A ++ ' ' :: s) = some (A, s) := by
  rw [strL_space_eq, breakSub_append_left ' ' [] A (' ' :: s) hA,
    show breakSub (' ' :: []) (' ' :: s) = some ([], s) from breakSub_prefix [' '] s (by simp)]
  simp

theorem splitSpace2_status (v code text : Str) (hv : ' ' ∉ v) (hc : ' ' ∉ code) :
    splitSpace2 (v ++ ' ' :: (code ++ ' ' :: text)) = [v, code, text] := by
  unfold splitSpace2
  simp only [breakSub_space_mid v _ hv, breakSub_space_mid code _ hc]

theorem dropWhile_eq_self_head (p : Char → Bool) (s : Str)
    (h : ∀ c, s.head? = some c → p c = false) : s.dropWhile p = s := by
  cases s with
  | nil => rfl
  | cons c t => rw [List.dropWhile_cons, if_neg (by simp [h c rfl])]

theorem pyStrip_eq_self (s : Str)
    (h1 : ∀ c, s.head? = some c → pyIsSpace c = false)
    (h2 : ∀ c, s.getLast? = some c → pyIsSpace c = false) : pyStrip s = s := by
  unfold pyStrip
  rw [dropWhile_eq_self_head _ _ h1,
    dropWhile_eq_self_head _ _ (fun c hc => h2 c (by rwa [List.head?_reverse] at hc)),
    List.reverse_reverse]

theorem getLast?_status (A code text : Str) (hne : text ≠ []) :
    (A ++ ' ' :: (code ++ ' ' :: text)).getLast? = text.getLast? := by
  rw [List.getLast?_append_of_ne_nil A (show (' ' :: (code ++ ' ' :: text) : Str) ≠ [] by simp),
    show ((' ' :: (code ++ ' ' :: text)) : Str) = [' '] ++ (code ++ ([' '] ++ text)) from rfl,
    List.getLast?_append_of_ne_nil [' ']
      (show (code ++ ([' '] ++ text) : Str) ≠ [] by simp),
    List.getLast?_append_of_ne_nil code (show ([' '] ++ text : Str) ≠ [] by simp),
    List.getLast?_append_of_ne_nil [' '] hne]

theorem lastNonSpace_ne_nil (s : Str) (h : lastNonSpace s = true) : s ≠ [] := by
  intro hnil
  rw [hnil] at h
  simp [lastNonSpace] at h

theorem lastNonSpace_spec (s : Str) (h : lastNonSpace s = true) (c : Char)
    (hc : s.getLast? = some c) : pyIsSpace c = false := by
  unfold lastNonSpace at h
  rw [hc] at h
  simpa using h

theorem statusLine_parse (code text : Str) (hc : ' ' ∉ code)
    (htext : lastNonSpace text = true) :
    splitSpace2 (pyStrip (strL "ZOMP/1.0" ++ ' ' :: (code ++ ' ' :: text)))
      = [strL "ZOMP/1.0", code, text] := by
  have hne : text ≠ [] := lastNonSpace_ne_nil text htext
  have hstrip : pyStrip (strL "ZOMP/1.0" ++ ' ' :: (code ++ ' ' :: text))
      = strL "ZOMP/1.0" ++ ' ' :: (code ++ ' ' :: text) := by
    apply pyStrip_eq_self
    · intro c hc2
      have hz : (strL "ZOMP/1.0" ++ ' ' :: (code ++ ' ' :: text)).head? = some 'Z' := rfl
      rw [hz] at hc2
      cases hc2
      decide
    · intro c hc2
      rw [getLast?_status _ code text hne] at hc2
      exact lastNonSpace_spec text htext c hc2
  rw [hstrip]
  exact splitSpace2_status (strL "ZOMP/1.0") code text (by decide) hc

theorem digitsValAux_acc (acc : Nat) (s : Str) :
    digitsValAux acc s = acc * 10 ^ s.length + digitsVal s := by
  induction s generalizing acc with
  | nil =>
    show acc = acc * 10 ^ (0 : Nat) + 0
    simp
  | cons c t ih =>
    show digitsValAux (10 * acc + digitVal c) t
        = acc * 10 ^ (c :: t).length + digitsVal (c :: t)
    have hv : digitsVal (c :: t) = digitsValAux (10 * 0 + digitVal c) t := rfl
    rw [ih (10 * acc + digitVal c), hv, Nat.mul_zero, Nat.zero_add, ih (digitVal c)]
    rw [List.length_cons, pow_succ]
    ring

theorem digitsVal_cons (c : Char) (t : Str) :
    digitsVal (c :: t) = digitVal c * 10 ^ t.length + digitsVal t := by
  show digitsValAux (10 * 0 + digitVal c) t = _
  rw [Nat.mul_zero, Nat.zero_add, digitsValAux_acc]

theorem digitVal_digitChar (n : Nat) (h : n < 10) : digitVal (digitChar n) = n := by
  interval_cases n <;> decide

theorem isDigit_digitChar (n : Nat) (h : n < 10) : (digitChar n).isDigit = true := by
  interval_cases n <;> decide

theorem natReprAux_spec (fuel : Nat) : ∀ (n : Nat) (acc : Str), n < 10 ^ fuel →
    digitsVal (natReprAux fuel n acc) = n * 10 ^ acc.length + digitsVal acc := by
  induction fuel with
  | zero =>
    intro n acc h
    interval_cases n
    simp [natReprAux]
  | succ fuel ih =>
    intro n acc h
    show digitsVal (if n < 10 then digitChar n :: acc
        else natReprAux fuel (n / 10) (digitChar (n % 10) :: acc)) = _
    split
    · rw [digitsVal_cons, digitVal_digitChar n ‹n < 10›]
    · have hdiv : n / 10 < 10 ^ fuel := by
        apply Nat.div_lt_of_lt_mul
        rw [Nat.mul_comm]
        rw [pow_succ] at h
        exact h
      rw [ih (n / 10) (digitChar (n % 10) :: acc) hdiv, digitsVal_cons,
        digitVal_digitChar (n % 10) (Nat.mod_lt _ (by norm_num))]
      have hdm : 10 * (n / 10) + n % 10 = n := Nat.div_add_mod n 10
      calc (n / 10) * 10 ^ (digitChar (n % 10) :: acc).length
            + (n % 10 * 10 ^ acc.length + digitsVal acc)
          = (10 * (n / 10) + n % 10) * 10 ^ acc.length + digitsVal acc := by
            simp [List.length_cons, pow_succ]; ring
        _ = n * 10 ^ acc.length + digitsVal acc := by rw [hdm]

theorem digitsVal_natRepr (n : Nat) : digitsVal (natRepr n) = n := by
  have h : n < 10 ^ (n + 1) :=
    lt_of_lt_of_le (Nat.lt_pow_self (by norm_num) n)
      (Nat.pow_le_pow_right (by norm_num) (Nat.le_succ n))
  have h2 := natReprAux_spec (n + 1) n [] h
  show digitsVal (natReprAux (n + 1) n []) = n
  rw [h2]
  show n * 10 ^ (0 : Nat) + 0 = n
  simp

theorem natReprAux_all_digits (fuel : Nat) : ∀ (n : Nat) (acc : Str),
    acc.all Char.isDigit = true → (natReprAux fuel n acc).all Char.isDigit = true := by
  induction fuel with
  | zero => intro n acc hacc; exact hacc
  | succ fuel ih =>
    intro n acc hacc
    show (if n < 10 then digitChar n :: acc
        else natReprAux fuel (n / 10) (digitChar (n % 10) :: acc)).all Char.isDigit = true
    split
    · simp [List.all_cons, isDigit_digitChar n ‹n < 10›, hacc]
    · exact ih _ _ (by
        simp [List.all_cons, isDigit_digitChar (n % 10) (Nat.mod_lt _ (by norm_num)), hacc])

theorem natRepr_all_digits (n : Nat) : (natRepr n).all Char.isDigit = true :=
  natReprAux_all_digits (n + 1) n [] rfl

theorem natReprAux_length (fuel : Nat) : ∀ (n : Nat) (acc : Str),
    acc.length ≤ (natReprAux fuel n acc).length := by
  induction fuel with
  | zero => intro n acc; exact Nat.le_refl _
  | succ fuel ih =>
    intro n acc
    show acc.length ≤ (if n < 10 then digitChar n :: acc
        else natReprAux fuel (n / 10) (digitChar (n % 10) :: acc)).length
    split
    · simp
    · exact le_trans (by simp) (ih (n / 10) (digitChar (n % 10) :: acc))

theorem natRepr_ne_nil (n : Nat) : natRepr n ≠ [] := by
  intro hnil
  have h0 : (natRepr n).length = 0 := by rw [hnil]; rfl
  show False
  unfold natRepr at hnil h0
  revert h0
  show (natReprAux (n + 1) n []).length = 0 → False
  intro h0
  have : (natReprAux (n + 1) n []).length ≠ 0 := by
    show (if n < 10 then digitChar n :: ([] : Str)
        else natReprAux n (n / 10) (digitChar (n % 10) :: [])).length ≠ 0
    split
    · simp
    · have := natReprAux_length n (n / 10) (digitChar (n % 10) :: [])
      simp only [List.length_cons, List.length_nil] at this
      omega
  exact this h0

theorem not_mem_of_all_digits (x : Char) (s : Str) (hs : s.all Char.isDigit = true)
    (hx : x.isDigit = false) : x ∉ s := by
  intro hm
  have := List.all_eq_true.mp hs x hm
  rw [hx] at this
  exact Bool.false_ne_true this

theorem isDigit_not_space (c : Char) (h : c.isDigit = true) : pyIsSpace c = false := by
  have h1 : c ≠ ' ' := by rintro rfl; exact absurd h (by decide)
  have h2 : c ≠ '\t' := by rintro rfl; exact absurd h (by decide)
  have h3 : c ≠ '\n' := by rintro rfl; exact absurd h (by decide)
  have h4 : c ≠ '\r' := by rintro rfl; exact absurd h (by decide)
  have h5 : c ≠ '\x0b' := by rintro rfl; exact absurd h (by decide)
  have h6 : c ≠ '\x0c' := by rintro rfl; exact absurd h (by decide)
  simp [pyIsSpace, h1, h2, h3, h4, h5, h6]

theorem pyStrip_digits (s : Str) (hs : s.all Char.isDigit = true) : pyStrip s = s := by
  apply pyStrip_eq_self
  · intro c hc
    exact isDigit_not_space c
      (List.all_eq_true.mp hs c (List.mem_of_mem_head? (by simp [hc])))
  · intro c hc
    exact isDigit_not_space c
      (List.all_eq_true.mp hs c (List.mem_of_mem_getLast? (by simp [hc])))

theorem pyInt_natRepr (n : Nat) : pyInt (natRepr n) = some (n : Int) := by
  have hdig := natRepr_all_digits n
  have hstrip : pyStrip (natRepr n) = natRepr n := pyStrip_digits _ hdig
  unfold pyInt
  rw [hstrip]
  cases hnr : natRepr n with
  | nil => exact absurd hnr (natRepr_ne_nil n)
  | cons c ds =>
    have hall : (c :: ds).all Char.isDigit = true := by rw [← hnr]; exact hdig
    have hcd : c.isDigit = true := by
      have := List.all_eq_true.mp hall c (List.mem_cons_self _ _)
      simpa using this
    have hc1 : c ≠ '-' := by rintro rfl; exact absurd hcd (by decide)
    have hc2 : c ≠ '+' := by rintro rfl; exact absurd hcd (by decide)
    show (if c = '-' then
        if ds ≠ [] ∧ ds.all Char.isDigit = true then some (-(digitsVal ds : Int)) else none
      else if c = '+' then
        if ds ≠ [] ∧ ds.all Char.isDigit = true then some ((digitsVal ds : Int)) else none
      else if (c :: ds).all Char.isDigit = true then some ((digitsVal (c :: ds) : Int))
      else none) = some (n : Int)
    rw [if_neg hc1, if_neg hc2, if_pos hall, ← hnr, digitsVal_natRepr]

theorem pyIndex1Split_CL (n : Nat) :
    pyIndex1Split (strL ": ") (strL "Content-Length" ++ (':' :: ' ' :: natRepr n))
      = some (natRepr n) := by
  have h1 : breakSub (strL ": ") (strL "Content-Length" ++ (':' :: ' ' :: natRepr n))
      = some (strL "Content-Length", natRepr n) := by
    rw [show strL ": " = ':' :: [' '] from rfl,
      breakSub_append_left ':' [' '] _ _ (by decide),
      show ((':' :: ' ' :: natRepr n) : Str) = (':' :: [' ']) ++ natRepr n from rfl,
      breakSub_prefix (':' :: [' ']) (natRepr n) (by simp)]
    simp
  have h2 : breakSub (strL ": ") (natRepr n) = none := by
    rw [show strL ": " = ':' :: [' '] from rfl]
    exact breakSub_not_mem ':' [' '] _
      (not_mem_of_all_digits ':' _ (natRepr_all_digits n) (by decide))
  unfold pyIndex1Split
  rw [h1, Option.map_some']
  simp only [h2]

theorem breakSub_sig_join_nil (lines : List Str)
    (h : ∀ l ∈ lines, l ≠ [] ∧ '\r' ∉ l) (hne : lines ≠ []) :
    breakSub sigL (joinCRLF lines ++ sigL) = some (joinCRLF lines, []) := by
  have h2 := breakSub_sig_join lines [] h hne
  simpa using h2

theorem glue_space (x : Str) : strL " " ++ x = ' ' :: x := rfl

theorem glue_status (x : Str) :
    strL "ZOMP/" ++ (strL "1.0" ++ ' ' :: x) = strL "ZOMP/1.0" ++ ' ' :: x := rfl

theorem glue_CL (x : Str) :
    strL "Content-Length: " ++ x = strL "Content-Length" ++ ':' :: ' ' :: x := rfl

theorem makeZOMPResponse_canon (code text inv body : Str) (h0 : startsWith0 code = false) :
    makeZOMPResponse code text inv body
      = joinCRLF [strL "ZOMP/1.0" ++ ' ' :: (code ++ ' ' :: text), inv,
          strL "Content-Length" ++ ':' :: ' ' :: natRepr body.length] ++ (sigL ++ body) := by
  simp only [makeZOMPResponse]
  rw [if_pos h0, joinCRLF_cons_cons, joinCRLF_cons_cons, joinCRLF_single]
  by_cases hbe : body = []
  · rw [if_neg (by simp [hbe])]
    subst hbe
    simp [crlfL_eq, sigL_eq, glue_space, glue_status, glue_CL, List.append_assoc]
  · rw [if_pos hbe]
    simp [crlfL_eq, sigL_eq, glue_space, glue_status, glue_CL, List.append_assoc]

theorem statusZ_cons (x : Str) : strL "ZOMP/1.0" ++ x = 'Z' :: (strL "OMP/1.0" ++ x) := rfl

theorem CL_cons (x : Str) : strL "Content-Length" ++ x = 'C' :: (strL "ontent-Length" ++ x) := rfl

theorem noCR_status (code text : Str) (hc : '\r' ∉ code) (ht : '\r' ∉ text) :
    '\r' ∉ strL "ZOMP/1.0" ++ ' ' :: (code ++ ' ' :: text) := by
  intro hm
  rw [List.mem_append, List.mem_cons, List.mem_append, List.mem_cons] at hm
  rcases hm with h | h | h | h | h
  · exact absurd h (by decide)
  · exact absurd h (by decide)
  · exact hc h
  · exact absurd h (by decide)
  · exact ht h

theorem noCR_CL (n : Nat) : '\r' ∉ strL "Content-Length" ++ ':' :: ' ' :: natRepr n := by
  intro hm
  rw [List.mem_append, List.mem_cons, List.mem_cons] at hm
  rcases hm with h | h | h | h
  · exact absurd h (by decide)
  · exact absurd h (by decide)
  · exact absurd h (by decide)
  · exact not_mem_of_all_digits '\r' _ (natRepr_all_digits n) (by decide) h

theorem respLines_wf (code text inv : Str) (hccr : '\r' ∉ code) (htcr : '\r' ∉ text)
    (hinv : inv ≠ []) (hinvcr : '\r' ∉ inv) (n : Nat) :
    ∀ l ∈ [strL "ZOMP/1.0" ++ ' ' :: (code ++ ' ' :: text), inv,
        strL "Content-Length" ++ ':' :: ' ' :: natRepr n], l ≠ [] ∧ '\r' ∉ l := by
  intro l hl
  simp only [List.mem_cons, List.not_mem_nil, or_false] at hl
  rcases hl with rfl | rfl | rfl
  · exact ⟨by rw [statusZ_cons]; simp, noCR_status code text hccr htcr⟩
  · exact ⟨hinv, hinvcr⟩
  · exact ⟨by rw [CL_cons]; simp, noCR_CL n⟩

/-- Controller-side decode of one complete response message with a
`Content-Length: 0` header (every non-error code with an empty body). -/
theorem decodeCtrl_resp_nobody (code text inv : Str)
    (hcsp : ' ' ∉ code) (hccr : '\r' ∉ code)
    (h00 : code ≠ strL "00") (h01 : code ≠ strL "01") (h02 : code ≠ strL "02")
    (htext : lastNonSpace text = true) (htcr : '\r' ∉ text)
    (hinv : inv ≠ []) (hinvcr : '\r' ∉ inv) :
    decodeCtrl [joinCRLF [strL "ZOMP/1.0" ++ ' ' :: (code ++ ' ' :: text), inv,
        strL "Content-Length" ++ ':' :: ' ' :: natRepr 0] ++ sigL] initCtrl
      = ⟨[], .ok none, ⟨[], code, text, inv, 0⟩, []⟩ := by
  have hwf := respLines_wf code text inv hccr htcr hinv hinvcr 0
  have hF1 := breakSub_sig_join_nil _ hwf (by simp)
  have hF2 := pySplitCRLF_join _ hwf (by simp)
  have hF3 := statusLine_parse code text hcsp htext
  have hF4 := pyIndex1Split_CL 0
  have hF5 : pyInt (natRepr 0) = some (0 : Int) := by simpa using pyInt_natRepr 0
  have hmne : (joinCRLF [strL "ZOMP/1.0" ++ ' ' :: (code ++ ' ' :: text), inv,
      strL "Content-Length" ++ ':' :: ' ' :: natRepr 0] ++ sigL) ≠ [] := by
    simp [sigL_eq]
  simp only [decodeCtrl, initCtrl, List.nil_append, hmne, hF1, hF2, hF3, hF4, hF5,
    h00, h01, h02, List.headD_cons, List.tail_cons, le_refl, if_true, if_false,
    ite_true, ite_false]
  simp only [or_self, ite_false, if_false]
  split
  · rfl
  · simp

theorem readBody_exact (body : Str) :
    readBody [] body (body.length : Int) = (some body, body, []) := by
  unfold readBody
  rw [if_neg (by simp)]


/-- Controller-side decode of one complete response message whose code is
"12" or "30" and whose declared `Content-Length` matches its nonempty body:
the call returns the body and leaves it in `buf`. -/
theorem decodeCtrl_resp_body (code text inv body : Str)
    (hcode : code = strL "12" ∨ code = strL "30")
    (htext : lastNonSpace text = true) (htcr : '\r' ∉ text)
    (hinv : inv ≠ []) (hinvcr : '\r' ∉ inv) (hbody : body ≠ []) :
    decodeCtrl [joinCRLF [strL "ZOMP/1.0" ++ ' ' :: (code ++ ' ' :: text), inv,
        strL "Content-Length" ++ ':' :: ' ' :: natRepr body.length] ++ (sigL ++ body)]
      initCtrl
      = ⟨[], .ok (some body), ⟨body, code, text, inv, (body.length : Int)⟩, []⟩ := by
  have hcsp : ' ' ∉ code := by rcases hcode with rfl | rfl <;> decide
  have hccr : '\r' ∉ code := by rcases hcode with rfl | rfl <;> decide
  have h00 : code ≠ strL "00" := by rcases hcode with rfl | rfl <;> decide
  have h01 : code ≠ strL "01" := by rcases hcode with rfl | rfl <;> decide
  have h02 : code ≠ strL "02" := by rcases hcode with rfl | rfl <;> decide
  have h1230 : ¬(code ≠ strL "12" ∧ code ≠ strL "30") := by
    rcases hcode with rfl | rfl
    · exact fun h => h.1 rfl
    · exact fun h => h.2 rfl
  have hlen : (0 : Int) < (body.length : Int) := by
    have := List.length_pos.mpr hbody
    exact_mod_cast this
  have hrb := readBody_exact body
  have hwf := respLines_wf code text inv hccr htcr hinv hinvcr body.length
  have hF1 := breakSub_sig_join _ body hwf (by simp)
  have hF2 := pySplitCRLF_join _ hwf (by simp)
  have hF3 := statusLine_parse code text hcsp htext
  have hF4 := pyIndex1Split_CL body.length
  have hF5 := pyInt_natRepr body.length
  have hmne : (joinCRLF [strL "ZOMP/1.0" ++ ' ' :: (code ++ ' ' :: text), inv,
      strL "Content-Length" ++ ':' :: ' ' :: natRepr body.length] ++ (sigL ++ body)) ≠ [] := by
    simp [sigL_eq]
  simp only [decodeCtrl, initCtrl, List.nil_append, hmne, hF1, hF2, hF3, hF4, hF5,
    List.headD_cons, List.tail_cons, le_refl, if_true, if_false, ite_true, ite_false,
    h00, h01, h02]
  rw [if_neg h1230, if_pos hlen, hrb]
  simp

/-- Controller-side decode of one complete registration message
(code "00"): the ACCEPT message is sent back. -/
theorem decodeCtrl_resp_00 (text : Str)
    (htext : lastNonSpace text = true) (htcr : '\r' ∉ text) :
    decodeCtrl [strL "ZOMP/1.0" ++ ' ' :: (strL "00" ++ ' ' :: text) ++ sigL] initCtrl
      = ⟨[ACCEPT_MSG], .ok none, ⟨[], strL "00", text, [], 0⟩, []⟩ := by
  have hScr := noCR_status (strL "00") text (by decide) htcr
  have hF1 : breakSub sigL ((strL "ZOMP/1.0" ++ ' ' :: (strL "00" ++ ' ' :: text)) ++ sigL)
      = some (strL "ZOMP/1.0" ++ ' ' :: (strL "00" ++ ' ' :: text), []) := by
    have h2 := breakSub_sig_join_nil [strL "ZOMP/1.0" ++ ' ' :: (strL "00" ++ ' ' :: text)]
      (by intro l hl
          simp only [List.mem_cons, List.not_mem_nil, or_false] at hl
          subst hl
          exact ⟨by rw [statusZ_cons]; simp, hScr⟩) (by simp)
    simpa [joinCRLF] using h2
  have hF2 := pySplitCRLF_noCR _ hScr
  have hF3 := statusLine_parse (strL "00") text (by decide) htext
  have hmne : ((strL "ZOMP/1.0" ++ ' ' :: (strL "00" ++ ' ' :: text)) ++ sigL) ≠ [] := by
    simp [sigL_eq]
  simp only [decodeCtrl, initCtrl, List.nil_append, hmne, hF1, hF2, hF3,
    List.headD_cons, le_refl, if_true, if_false, ite_true, ite_false]

/-- Controller-side decode of one complete error message
(codes "01" and "02"): logged, no reply. -/
theorem decodeCtrl_resp_0err (code text : Str)
    (hcode : code = strL "01" ∨ code = strL "02")
    (htext : lastNonSpace text = true) (htcr : '\r' ∉ text) :
    decodeCtrl [strL "ZOMP/1.0" ++ ' ' :: (code ++ ' ' :: text) ++ sigL] initCtrl
      = ⟨[], .ok none, ⟨[], code, text, [], 0⟩, []⟩ := by
  have hcsp : ' ' ∉ code := by rcases hcode with rfl | rfl <;> decide
  have hccr : '\r' ∉ code := by rcases hcode with rfl | rfl <;> decide
  have h00 : code ≠ strL "00" := by rcases hcode with rfl | rfl <;> decide
  have hScr := noCR_status code text hccr htcr
  have hF1 : breakSub sigL ((strL "ZOMP/1.0" ++ ' ' :: (code ++ ' ' :: text)) ++ sigL)
      = some (strL "ZOMP/1.0" ++ ' ' :: (code ++ ' ' :: text), []) := by
    have h2 := breakSub_sig_join_nil [strL "ZOMP/1.0" ++ ' ' :: (code ++ ' ' :: text)]
      (by intro l hl
          simp only [List.mem_cons, List.not_mem_nil, or_false] at hl
          subst hl
          exact ⟨by rw [statusZ_cons]; simp, hScr⟩) (by simp)
    simpa [joinCRLF] using h2
  have hF2 := pySplitCRLF_noCR _ hScr
  have hF3 := statusLine_parse code text hcsp htext
  have hmne : ((strL "ZOMP/1.0" ++ ' ' :: (code ++ ' ' :: text)) ++ sigL) ≠ [] := by
    simp [sigL_eq]
  simp only [decodeCtrl, initCtrl, List.nil_append, hmne, hF1, hF2, hF3,
    List.headD_cons, le_refl, if_true, if_false, ite_true, ite_false, h00]
  rw [if_pos hcode]

theorem makeZOMPResponse_canon0 (code text : Str) (h0 : startsWith0 code = true) :
    makeZOMPResponse code text [] []
      = strL "ZOMP/1.0" ++ ' ' :: (code ++ ' ' :: text) ++ sigL := by
  simp only [makeZOMPResponse]
  rw [if_neg (show ¬(([] : Str) ≠ []) by simp),
    if_neg (by intro hc2; rw [h0] at hc2; exact absurd hc2 (by decide))]
  simp [crlfL_eq, sigL_eq, glue_space, glue_status, List.append_assoc]

theorem c2_bridge_zero (code text : Str)
    (hc : code = strL "00" ∨ code = strL "01" ∨ code = strL "02")
    (htext : lastNonSpace text = true) (htcr : '\r' ∉ text) :
    decodeTupleCtrl [makeZOMPResponse code text [] []] = .ok (code, text, [], []) := by
  have h0 : startsWith0 code = true := by rcases hc with rfl | rfl | rfl <;> decide
  rw [makeZOMPResponse_canon0 code text h0]
  rcases hc with rfl | rfl | rfl
  · unfold decodeTupleCtrl
    rw [decodeCtrl_resp_00 text htext htcr]
    rfl
  · unfold decodeTupleCtrl
    rw [decodeCtrl_resp_0err _ text (Or.inl rfl) htext htcr]
    rfl
  · unfold decodeTupleCtrl
    rw [decodeCtrl_resp_0err _ text (Or.inr rfl) htext htcr]
    rfl

theorem c2_bridge_nobody (code text inv : Str)
    (h0 : startsWith0 code = false)
    (hcsp : ' ' ∉ code) (hccr : '\r' ∉ code)
    (h00 : code ≠ strL "00") (h01 : code ≠ strL "01") (h02 : code ≠ strL "02")
    (htext : lastNonSpace text = true) (htcr : '\r' ∉ text)
    (hinv : inv ≠ []) (hinvcr : '\r' ∉ inv) :
    decodeTupleCtrl [makeZOMPResponse code text inv []] = .ok (code, text, inv, []) := by
  rw [makeZOMPResponse_canon code text inv [] h0]
  simp only [List.length_nil, List.append_nil]
  unfold decodeTupleCtrl
  rw [decodeCtrl_resp_nobody code text inv hcsp hccr h00 h01 h02 htext htcr hinv hinvcr]
  rfl

theorem c2_bridge_body (code text inv body : Str)
    (hcode : code = strL "12" ∨ code = strL "30")
    (htext : lastNonSpace text = true) (htcr : '\r' ∉ text)
    (hinv : inv ≠ []) (hinvcr : '\r' ∉ inv) (hbody : body ≠ []) :
    decodeTupleCtrl [makeZOMPResponse code text inv body] = .ok (code, text, inv, body) := by
  have h0 : startsWith0 code = false := by rcases hcode with rfl | rfl <;> decide
  rw [makeZOMPResponse_canon code text inv body h0]
  unfold decodeTupleCtrl
  rw [decodeCtrl_resp_body code text inv body hcode htext htcr hinv hinvcr hbody]
  rfl

/-- C2 (amended): for every message tuple `(code, text, invocation, body)`
with a code from §6's table that carries an invocation line when the code
does not start with "0" — i.e. every code except the bare-status
controller→agent codes "0", "5" and "9" — and whose `text` is a nonempty
line not ending in whitespace, whose fields contain no carriage returns,
and whose body is empty unless the code is "12" or "30", the
controller-side decode of `makeZOMPResponse`'s encoding reproduces
`(code, text, invocation, body)` exactly. -/
theorem c2_roundtrip (code text inv body : Str)
    (hcode : code ∈ [strL "00", strL "01", strL "02", strL "1", strL "2", strL "3",
      strL "10", strL "11", strL "12", strL "20", strL "21", strL "22",
      strL "30", strL "31", strL "32"])
    (htext : lastNonSpace text = true) (htcr : '\r' ∉ text)
    (hinv0 : startsWith0 code = true → inv = [])
    (hinv1 : startsWith0 code = false → inv ≠ [] ∧ '\r' ∉ inv)
    (hbody : code ≠ strL "12" → code ≠ strL "30" → body = []) :
    decodeTupleCtrl [makeZOMPResponse code text inv body]
      = .ok (code, text, inv, body) := by
  simp only [List.mem_cons, List.not_mem_nil, or_false] at hcode
  rcases hcode with rfl | rfl | rfl | rfl | rfl | rfl | rfl | rfl | rfl | rfl | rfl | rfl
    | rfl | rfl | rfl
  case inl =>
    have hi : inv = [] := hinv0 (by decide)
    have hb : body = [] := hbody (by decide) (by decide)
    subst hi; subst hb
    exact c2_bridge_zero (strL "00") text (Or.inl rfl) htext htcr
  case inr.inl =>
    have hi : inv = [] := hinv0 (by decide)
    have hb : body = [] := hbody (by decide) (by decide)
    subst hi; subst hb
    exact c2_bridge_zero (strL "01") text (Or.inr (Or.inl rfl)) htext htcr
  case inr.inr.inl =>
    have hi : inv = [] := hinv0 (by decide)
    have hb : body = [] := hbody (by decide) (by decide)
    subst hi; subst hb
    exact c2_bridge_zero (strL "02") text (Or.inr (Or.inr rfl)) htext htcr
  all_goals
    obtain ⟨hinvne, hinvcr⟩ := hinv1 (by decide)
  next =>
    have hb : body = [] := hbody (by decide) (by decide)
    subst hb
    exact c2_bridge_nobody (strL "1") text inv (by decide) (by decide) (by decide)
      (by decide) (by decide) (by decide) htext htcr hinvne hinvcr
  next =>
    have hb : body = [] := hbody (by decide) (by decide)
    subst hb
    exact c2_bridge_nobody (strL "2") text inv (by decide) (by decide) (by decide)
      (by decide) (by decide) (by decide) htext htcr hinvne hinvcr
  next =>
    have hb : body = [] := hbody (by decide) (by decide)
    subst hb
    exact c2_bridge_nobody (strL "3") text inv (by decide) (by decide) (by decide)
      (by decide) (by decide) (by decide) htext htcr hinvne hinvcr
  next =>
    have hb : body = [] := hbody (by decide) (by decide)
    subst hb
    exact c2_bridge_nobody (strL "10") text inv (by decide) (by decide) (by decide)
      (by decide) (by decide) (by decide) htext htcr hinvne hinvcr
  next =>
    have hb : body = [] := hbody (by decide) (by decide)
    subst hb
    exact c2_bridge_nobody (strL "11") text inv (by decide) (by decide) (by decide)
      (by decide) (by decide) (by decide) htext htcr hinvne hinvcr
  next =>
    by_cases hb : body = []
    · subst hb
      exact c2_bridge_nobody (strL "12") text inv (by decide) (by decide) (by decide)
        (by decide) (by decide) (by decide) htext htcr hinvne hinvcr
    · exact c2_bridge_body (strL "12") text inv body (Or.inl rfl) htext htcr
        hinvne hinvcr hb
  next =>
    have hb : body = [] := hbody (by decide) (by decide)
    subst hb
    exact c2_bridge_nobody (strL "20") text inv (by decide) (by decide) (by decide)
      (by decide) (by decide) (by decide) htext htcr hinvne hinvcr
  next =>
    have hb : body = [] := hbody (by decide) (by decide)
    subst hb
    exact c2_bridge_nobody (strL "21") text inv (by decide) (by decide) (by decide)
      (by decide) (by decide) (by decide) htext htcr hinvne hinvcr
  next =>
    have hb : body = [] := hbody (by decide) (by decide)
    subst hb
    exact c2_bridge_nobody (strL "22") text inv (by decide) (by decide) (by decide)
      (by decide) (by decide) (by decide) htext htcr hinvne hinvcr
  next =>
    by_cases hb : body = []
    · subst hb
      exact c2_bridge_nobody (strL "30") text inv (by decide) (by decide) (by decide)
        (by decide) (by decide) (by decide) htext htcr hinvne hinvcr
    · exact c2_bridge_body (strL "30") text inv body (Or.inr rfl) htext htcr
        hinvne hinvcr hb
  next =>
    have hb : body = [] := hbody (by decide) (by decide)
    subst hb
    exact c2_bridge_nobody (strL "31") text inv (by decide) (by decide) (by decide)
      (by decide) (by decide) (by decide) htext htcr hinvne hinvcr
  next =>
    have hb : body = [] := hbody (by decide) (by decide)
    subst hb
    exact c2_bridge_nobody (strL "32") text inv (by decide) (by decide) (by decide)
      (by decide) (by decide) (by decide) htext htcr hinvne hinvcr

/-- C1: the controller-side decoder does not return exactly the declared
`Content-Length` bytes.  For a code-"30" message declaring 5 body bytes
that arrives together with 3 surplus bytes of a following message, the
decode call returns all 8 buffered characters ("helloXYZ") as the body
instead of the first 5, and leaves no surplus in the buffer for the next
decode (the state's `buf` is the whole returned string, which
`handleResponses` then resets). -/
theorem c1_body_excess :
    decodeCtrl
        [strL "ZOMP/1.0 30 OK, reporting\r\na.sh\r\nContent-Length: 5\r\n\r\nhelloXYZ"]
        initCtrl
      = ⟨[], .ok (some (strL "helloXYZ")),
          ⟨strL "helloXYZ", strL "30", strL "OK, reporting", strL "a.sh", 5⟩, []⟩
    ∧ (strL "helloXYZ").length = 8 := by decide

/-- C2 (counterexample): the §6-form code-"0" message carries no invocation
line, and encoding it with `makeZOMPResponse` then decoding it on the
controller side raises an uncaught `ValueError` (the two-element header
unpack) instead of reproducing the `(code, text, invocation, body)`
tuple. -/
theorem c2_code0_crashes :
    decodeTupleCtrl [makeZOMPResponse (strL "0") (strL "ACCEPT") [] []]
      = .error PyErr.valueError := by decide

/-- C2 (witness): round trip of a concrete code-"30" message with body. -/
theorem c2_roundtrip_w :
    decodeTupleCtrl
        [makeZOMPResponse (strL "30") (strL "OK, reporting") (strL "a.sh") (strL "hi")]
      = .ok (strL "30", strL "OK, reporting", strL "a.sh", strL "hi") :=
  c2_roundtrip (strL "30") (strL "OK, reporting") (strL "a.sh") (strL "hi")
    (by decide) (by decide) (by decide) (by decide) (by decide) (by decide)

theorem glue_status2 (x : Str) : strL "ZOMP/1.0 " ++ x = strL "ZOMP/1.0" ++ ' ' :: x := rfl

theorem glue_req_run (x : Str) :
    strL "ZOMP/" ++ (strL "1.0" ++ ' ' :: (strL "1" ++ ' ' :: (toUpperStr (strL "RUN") ++ x)))
      = strL "ZOMP/1.0 1 RUN" ++ x := rfl

theorem glue_req_stop (x : Str) :
    strL "ZOMP/" ++ (strL "1.0" ++ ' ' :: (strL "2" ++ ' ' :: (toUpperStr (strL "STOP") ++ x)))
      = strL "ZOMP/1.0 2 STOP" ++ x := rfl

theorem glue_req_report (x : Str) :
    strL "ZOMP/" ++ (strL "1.0" ++ ' ' :: (strL "3" ++ ' ' :: (toUpperStr (strL "REPORT") ++ x)))
      = strL "ZOMP/1.0 3 REPORT" ++ x := rfl

/-- C3 (amended): the agent-side encoder `makeZOMPResponse` produces, for a
code not starting with "0", exactly the status line, invocation line,
`Content-Length` line, the `\r\n\r\n` terminator and the body; the
controller-side request encoder `makeZOMPRequest`, however, emits no
`Content-Length` line and no body — only the status line, the invocation
line and the terminator. -/
theorem c3_encoders (code text inv body reqInv : Str)
    (h0 : startsWith0 code = false) :
    makeZOMPResponse code text inv body
        = strL "ZOMP/1.0 " ++ code ++ strL " " ++ text ++ crlfL ++ inv ++ crlfL
          ++ strL "Content-Length: " ++ natRepr body.length ++ crlfL ++ crlfL ++ body
    ∧ makeZOMPRequest (strL "RUN") reqInv
        = some (strL "ZOMP/1.0 1 RUN" ++ crlfL ++ reqInv ++ crlfL ++ crlfL)
    ∧ makeZOMPRequest (strL "STOP") reqInv
        = some (strL "ZOMP/1.0 2 STOP" ++ crlfL ++ reqInv ++ crlfL ++ crlfL)
    ∧ makeZOMPRequest (strL "REPORT") reqInv
        = some (strL "ZOMP/1.0 3 REPORT" ++ crlfL ++ reqInv ++ crlfL ++ crlfL) := by
  refine ⟨?_, ?_, ?_, ?_⟩
  · rw [makeZOMPResponse_canon code text inv body h0]
    simp [joinCRLF_cons_cons, joinCRLF_single, crlfL_eq, sigL_eq, glue_status2, glue_CL,
      glue_space, List.append_assoc]
  · simp only [makeZOMPRequest]
    rw [if_pos (show toLowerStr (strL "RUN") = strL "run" by decide)]
    simp [crlfL_eq, glue_space, glue_req_run, List.append_assoc]
  · simp only [makeZOMPRequest]
    rw [if_neg (show ¬(toLowerStr (strL "STOP") = strL "run") by decide),
      if_pos (show toLowerStr (strL "STOP") = strL "stop" by decide)]
    simp [crlfL_eq, glue_space, glue_req_stop, List.append_assoc]
  · simp only [makeZOMPRequest]
    rw [if_neg (show ¬(toLowerStr (strL "REPORT") = strL "run") by decide),
      if_neg (show ¬(toLowerStr (strL "REPORT") = strL "stop") by decide),
      if_pos (show toLowerStr (strL "REPORT") = strL "report" by decide)]
    simp [crlfL_eq, glue_space, glue_req_report, List.append_assoc]

/-- C3 (witness): the two encoders evaluated at concrete inputs. -/
theorem c3_encoders_w :
    makeZOMPResponse (strL "10") (strL "OK") (strL "a.sh") (strL "hi")
        = strL "ZOMP/1.0 " ++ strL "10" ++ strL " " ++ strL "OK" ++ crlfL ++ strL "a.sh"
          ++ crlfL ++ strL "Content-Length: " ++ natRepr (strL "hi").length ++ crlfL ++ crlfL
          ++ strL "hi"
    ∧ makeZOMPRequest (strL "RUN") (strL "x.sh")
        = some (strL "ZOMP/1.0 1 RUN" ++ crlfL ++ strL "x.sh" ++ crlfL ++ crlfL)
    ∧ makeZOMPRequest (strL "STOP") (strL "x.sh")
        = some (strL "ZOMP/1.0 2 STOP" ++ crlfL ++ strL "x.sh" ++ crlfL ++ crlfL)
    ∧ makeZOMPRequest (strL "REPORT") (strL "x.sh")
        = some (strL "ZOMP/1.0 3 REPORT" ++ crlfL ++ strL "x.sh" ++ crlfL ++ crlfL) :=
  c3_encoders (strL "10") (strL "OK") (strL "a.sh") (strL "hi") (strL "x.sh") (by decide)

/-- C3 (counterexample): the controller-side request encoder emits no
`Content-Length` line: for RUN of "a.sh" its actual output differs from
the claimed status/invocation/Content-Length/terminator layout. -/
theorem c3_request_no_content_length :
    makeZOMPRequest (strL "RUN") (strL "a.sh")
        = some (strL "ZOMP/1.0 1 RUN\r\na.sh\r\n\r\n")
    ∧ strL "ZOMP/1.0 1 RUN\r\na.sh\r\n\r\n"
        ≠ strL "ZOMP/1.0 1 RUN\r\na.sh\r\nContent-Length: 0\r\n\r\n" := by decide

/-- C4: the agent's RUN dispatch (zompie.py lines 116–127).  If the task
for the key is alive, reply 11 with no other effect and no state change;
otherwise reply 12 with the cached report attached as the body when one
exists, else chmod and reply 10 — and in both non-running sub-cases
unconditionally spawn a fresh background task for the key, recording it as
running. -/
theorem c4_run_dispatch (inv arg0 : Str) (st : AgentState) :
    (lookupA inv st.processes = some true →
      handleCommand (strL "1") inv arg0 st
        = .ok ([.send (makeZOMPResponse (strL "11")
            (strL "Ignore, script already running") inv)], st))
    ∧ (∀ rep, lookupA inv st.processes ≠ some true → lookupA inv st.reports = some rep →
      handleCommand (strL "1") inv arg0 st
        = .ok ([.send (makeZOMPResponse (strL "12")
              (strL "OK, returning existing report") inv rep), .spawn inv],
            { st with processes := insertA inv true st.processes }))
    ∧ (lookupA inv st.processes ≠ some true → lookupA inv st.reports = none →
      handleCommand (strL "1") inv arg0 st
        = .ok ([.chmod arg0,
            .send (makeZOMPResponse (strL "10") (strL "OK, running script") inv),
            .spawn inv],
            { st with processes := insertA inv true st.processes })) := by
  refine ⟨?_, ?_, ?_⟩
  · intro halive
    simp [handleCommand, halive]
  · intro rep hdead hrep
    simp [handleCommand, hdead, hrep]
  · intro hdead hrep
    simp [handleCommand, hdead, hrep]

/-- C4 (witness): the three RUN branches at concrete states. -/
theorem c4_run_dispatch_w :
    handleCommand (strL "1") (strL "a.sh") (strL "./a.sh")
        ⟨[(strL "a.sh", true)], []⟩
      = .ok ([.send (makeZOMPResponse (strL "11")
          (strL "Ignore, script already running") (strL "a.sh"))],
          ⟨[(strL "a.sh", true)], []⟩)
    ∧ handleCommand (strL "1") (strL "a.sh") (strL "./a.sh")
        ⟨[], [(strL "a.sh", strL "out")]⟩
      = .ok ([.send (makeZOMPResponse (strL "12")
            (strL "OK, returning existing report") (strL "a.sh") (strL "out")),
          .spawn (strL "a.sh")],
          ⟨[(strL "a.sh", true)], [(strL "a.sh", strL "out")]⟩)
    ∧ handleCommand (strL "1") (strL "a.sh") (strL "./a.sh") ⟨[], []⟩
      = .ok ([.chmod (strL "./a.sh"),
          .send (makeZOMPResponse (strL "10") (strL "OK, running script") (strL "a.sh")),
          .spawn (strL "a.sh")],
          ⟨[(strL "a.sh", true)], []⟩) :=
  ⟨(c4_run_dispatch (strL "a.sh") (strL "./a.sh") ⟨[(strL "a.sh", true)], []⟩).1 (by decide),
   (c4_run_dispatch (strL "a.sh") (strL "./a.sh") ⟨[], [(strL "a.sh", strL "out")]⟩).2.1
     (strL "out") (by decide) (by decide),
   (c4_run_dispatch (strL "a.sh") (strL "./a.sh") ⟨[], []⟩).2.2 (by decide) (by decide)⟩

/-- C5: the agent's STOP dispatch (zompie.py lines 129–138).  A running
task is forcibly terminated, its table entry removed and 20 sent, with the
report cache untouched; a dead key with a cached report gets 22; otherwise
21. -/
theorem c5_stop_dispatch (inv arg0 : Str) (st : AgentState) :
    (lookupA inv st.processes = some true →
      handleCommand (strL "2") inv arg0 st
        = .ok ([.terminate inv,
            .send (makeZOMPResponse (strL "20") (strL "OK, stopping script") inv)],
            { st with processes := eraseA inv st.processes }))
    ∧ (∀ rep, lookupA inv st.processes ≠ some true → lookupA inv st.reports = some rep →
      handleCommand (strL "2") inv arg0 st
        = .ok ([.send (makeZOMPResponse (strL "22")
            (strL "Ignore, script completed running") inv)], st))
    ∧ (lookupA inv st.processes ≠ some true → lookupA inv st.reports = none →
      handleCommand (strL "2") inv arg0 st
        = .ok ([.send (makeZOMPResponse (strL "21")
            (strL "Ignore, script not currently running") inv)], st)) := by
  have hne : ¬(strL "2" = strL "1") := by decide
  refine ⟨?_, ?_, ?_⟩
  · intro halive
    simp [handleCommand, hne, halive]
  · intro rep hdead hrep
    simp [handleCommand, hne, hdead, hrep]
  · intro hdead hrep
    simp [handleCommand, hne, hdead, hrep]

/-- C5 (witness): the three STOP branches at concrete states. -/
theorem c5_stop_dispatch_w :
    handleCommand (strL "2") (strL "a.sh") (strL "./a.sh")
        ⟨[(strL "a.sh", true)], []⟩
      = .ok ([.terminate (strL "a.sh"),
          .send (makeZOMPResponse (strL "20") (strL "OK, stopping script") (strL "a.sh"))],
          ⟨[], []⟩)
    ∧ handleCommand (strL "2") (strL "a.sh") (strL "./a.sh")
        ⟨[], [(strL "a.sh", strL "out")]⟩
      = .ok ([.send (makeZOMPResponse (strL "22")
          (strL "Ignore, script completed running") (strL "a.sh"))],
          ⟨[], [(strL "a.sh", strL "out")]⟩)
    ∧ handleCommand (strL "2") (strL "a.sh") (strL "./a.sh") ⟨[], []⟩
      = .ok ([.send (makeZOMPResponse (strL "21")
          (strL "Ignore, script not currently running") (strL "a.sh"))], ⟨[], []⟩) :=
  ⟨(c5_stop_dispatch (strL "a.sh") (strL "./a.sh") ⟨[(strL "a.sh", true)], []⟩).1 (by decide),
   (c5_stop_dispatch (strL "a.sh") (strL "./a.sh") ⟨[], [(strL "a.sh", strL "out")]⟩).2.1
     (strL "out") (by decide) (by decide),
   (c5_stop_dispatch (strL "a.sh") (strL "./a.sh") ⟨[], []⟩).2.2 (by decide) (by decide)⟩

/-- C6 (counterexample): with a cached report for "a.sh" but no task-table
entry for it, a REPORT request is answered with code 32, not with code 30
and the cached bytes — the code dispatches on the task table first. -/
theorem c6_cached_without_entry_gets_32 :
    handleCommand (strL "3") (strL "a.sh") (strL "./a.sh")
        ⟨[], [(strL "a.sh", strL "out")]⟩
      = .ok ([.send (makeZOMPResponse (strL "32")
          (strL "No report, not running script") (strL "a.sh"))],
          ⟨[], [(strL "a.sh", strL "out")]⟩)
    ∧ lookupA (strL "a.sh") (⟨[], [(strL "a.sh", strL "out")]⟩ : AgentState).reports
      = some (strL "out") := by decide

/-- C6 (amended): the agent's REPORT dispatch (zompie.py lines 140–148)
branches on the task table first: a running task gets 31; a dead entry
with a cached report gets 30 with the cached bytes as body; a key with no
task-table entry gets 32 regardless of the cache (a dead entry with no
cached report raises KeyError, see the C9 theorem). -/
theorem c6_report_dispatch (inv arg0 : Str) (st : AgentState) :
    (lookupA inv st.processes = some true →
      handleCommand (strL "3") inv arg0 st
        = .ok ([.send (makeZOMPResponse (strL "31")
            (strL "No report, waiting on completion") inv)], st))
    ∧ (∀ rep, lookupA inv st.processes = some false → lookupA inv st.reports = some rep →
      handleCommand (strL "3") inv arg0 st
        = .ok ([.send (makeZOMPResponse (strL "30") (strL "OK, reporting") inv rep)], st))
    ∧ (lookupA inv st.processes = none →
      handleCommand (strL "3") inv arg0 st
        = .ok ([.send (makeZOMPResponse (strL "32")
            (strL "No report, not running script") inv)], st)) := by
  have hne1 : ¬(strL "3" = strL "1") := by decide
  have hne2 : ¬(strL "3" = strL "2") := by decide
  refine ⟨?_, ?_, ?_⟩
  · intro halive
    simp [handleCommand, hne1, hne2, halive]
  · intro rep hdead hrep
    simp [handleCommand, hne1, hne2, hdead, hrep]
  · intro hnone
    simp [handleCommand, hne1, hne2, hnone]

/-- C6 (witness): the three REPORT branches at concrete states. -/
theorem c6_report_dispatch_w :
    handleCommand (strL "3") (strL "a.sh") (strL "./a.sh")
        ⟨[(strL "a.sh", true)], []⟩
      = .ok ([.send (makeZOMPResponse (strL "31")
          (strL "No report, waiting on completion") (strL "a.sh"))],
          ⟨[(strL "a.sh", true)], []⟩)
    ∧ handleCommand (strL "3") (strL "a.sh") (strL "./a.sh")
        ⟨[(strL "a.sh", false)], [(strL "a.sh", strL "out")]⟩
      = .ok ([.send (makeZOMPResponse (strL "30") (strL "OK, reporting")
          (strL "a.sh") (strL "out"))],
          ⟨[(strL "a.sh", false)], [(strL "a.sh", strL "out")]⟩)
    ∧ handleCommand (strL "3") (strL "b.sh") (strL "./b.sh") ⟨[], []⟩
      = .ok ([.send (makeZOMPResponse (strL "32")
          (strL "No report, not running script") (strL "b.sh"))], ⟨[], []⟩) :=
  ⟨(c6_report_dispatch (strL "a.sh") (strL "./a.sh") ⟨[(strL "a.sh", true)], []⟩).1
     (by decide),
   (c6_report_dispatch (strL "a.sh") (strL "./a.sh")
       ⟨[(strL "a.sh", false)], [(strL "a.sh", strL "out")]⟩).2.1
     (strL "out") (by decide) (by decide),
   (c6_report_dispatch (strL "b.sh") (strL "./b.sh") ⟨[], []⟩).2.2 (by decide)⟩

/-- C9: a REPORT for a key whose task-table entry is dead while the
ReportCache holds nothing for it (as happens when the script exited with a
nonzero status, `subprocess.check_output` raised, and `storeResult` never
assigned) hits the bare `reports[script_invocation]` lookup and raises an
uncaught KeyError: nothing is sent and the serve loop has no handler for
it.  The second conjunct is `storeResult` on a raising `check_output`:
the cache is left unchanged. -/
theorem c9_report_keyerror (inv arg0 : Str) (st : AgentState)
    (hproc : lookupA inv st.processes = some false)
    (hrep : lookupA inv st.reports = none) :
    handleCommand (strL "3") inv arg0 st = .error .keyError
    ∧ storeResult inv (.error ()) st.reports = st.reports := by
  have hne1 : ¬(strL "3" = strL "1") := by decide
  have hne2 : ¬(strL "3" = strL "2") := by decide
  constructor
  · simp [handleCommand, hne1, hne2, hproc, hrep]
  · rfl

/-- C9 (witness): the KeyError at a concrete state. -/
theorem c9_report_keyerror_w :
    handleCommand (strL "3") (strL "a.sh") (strL "./a.sh")
        ⟨[(strL "a.sh", false)], []⟩ = .error .keyError
    ∧ storeResult (strL "a.sh") (.error ())
        (⟨[(strL "a.sh", false)], []⟩ : AgentState).reports
      = (⟨[(strL "a.sh", false)], []⟩ : AgentState).reports :=
  c9_report_keyerror (strL "a.sh") (strL "./a.sh") ⟨[(strL "a.sh", false)], []⟩
    (by decide) (by decide)

/-- C7: a well-formed code-"5" (NOT UNDERSTOOD) message — the controller's
own `NOT_UNDERSTOOD` constant, which per §3 carries no invocation line —
is caught by the agent's missing-script check (zompie.py line 49) before
the code-"5" case is reached: the agent sends an `01 Bad request` reply on
the connection instead of only logging. -/
theorem c7_not_understood_gets_reply :
    decodeAgent (fun _ => true) [strL "ZOMP/1.0 5 NOT UNDERSTOOD\r\n\r\n"] initAgentBuf
      = ⟨[makeZOMPResponse (strL "01") (strL "Bad request")], none,
          ⟨[], strL "5", strL "NOT UNDERSTOOD", [], [], []⟩, []⟩
    ∧ makeZOMPResponse (strL "01") (strL "Bad request") ≠ [] := by decide

/-- C8: on a closed connection (a receive stream with no bytes), the
controller's `handleResponses` loop never terminates: after any number of
iterations the task is still running, in an unchanged state — each
iteration's `bufferMessages` immediately returns `None` (ConnectionClosed)
and the `while True` loop, which has no exit path, re-invokes it. -/
theorem c8_receiver_never_ends (zid : Str) (fuel : Nat) :
    handleResponsesRun zid fuel ⟨initCtrl, [], []⟩ = .running ⟨initCtrl, [], []⟩ := by
  induction fuel with
  | zero => rfl
  | succ fuel ih =>
    have hd : decodeCtrl [] initCtrl = ⟨[], .ok none, initCtrl, []⟩ := rfl
    simp only [handleResponsesRun, hd]
    exact ih

/-- C10: on the controller side, a message whose status line parses with a
code outside "00"/"01"/"02" but whose header block has other than exactly
two lines after the status line makes the two-element unpack (zomp_cnc.py
line 62, outside the `try`) raise an uncaught `ValueError`: nothing is
sent — in particular no NOT-UNDERSTOOD — and one iteration of the
receiver loop crashes on it. -/
theorem c10_unpack_valueerror (code text zid : Str) (restLines : List Str)
    (hcsp : ' ' ∉ code) (hccr : '\r' ∉ code)
    (h00 : code ≠ strL "00") (h01 : code ≠ strL "01") (h02 : code ≠ strL "02")
    (htext : lastNonSpace text = true) (htcr : '\r' ∉ text)
    (hlines : ∀ l ∈ restLines, l ≠ [] ∧ '\r' ∉ l)
    (hlen : restLines.length ≠ 2) :
    decodeCtrl [joinCRLF ((strL "ZOMP/1.0" ++ ' ' :: (code ++ ' ' :: text)) :: restLines)
        ++ sigL] initCtrl
      = ⟨[], .error .valueError, ⟨[], code, text, [], 0⟩, []⟩
    ∧ handleResponsesRun zid 1
        ⟨initCtrl, [joinCRLF ((strL "ZOMP/1.0" ++ ' ' :: (code ++ ' ' :: text)) :: restLines)
          ++ sigL], []⟩
      = .crashed .valueError := by
  have hwf : ∀ l ∈ (strL "ZOMP/1.0" ++ ' ' :: (code ++ ' ' :: text)) :: restLines,
      l ≠ [] ∧ '\r' ∉ l := by
    intro l hl
    rcases List.mem_cons.mp hl with rfl | hmem
    · exact ⟨by rw [statusZ_cons]; simp, noCR_status code text hccr htcr⟩
    · exact hlines l hmem
  have hF1 := breakSub_sig_join_nil _ hwf (by simp)
  have hF2 := pySplitCRLF_join _ hwf (by simp)
  have hF3 := statusLine_parse code text hcsp htext
  have hmne : (joinCRLF ((strL "ZOMP/1.0" ++ ' ' :: (code ++ ' ' :: text)) :: restLines)
      ++ sigL) ≠ [] := by
    simp [sigL_eq]
  have hfull : decodeCtrl
      [joinCRLF ((strL "ZOMP/1.0" ++ ' ' :: (code ++ ' ' :: text)) :: restLines) ++ sigL]
      initCtrl
      = ⟨[], .error .valueError, ⟨[], code, text, [], 0⟩, []⟩ := by
    rcases restLines with _ | ⟨a, _ | ⟨b, _ | ⟨c, rest⟩⟩⟩
    · simp only [decodeCtrl, initCtrl, List.nil_append, hmne, hF1, hF2, hF3,
        List.headD_cons, List.tail_cons, le_refl, if_true, if_false, ite_true, ite_false,
        h00, h01, h02]
      simp
    · simp only [decodeCtrl, initCtrl, List.nil_append, hmne, hF1, hF2, hF3,
        List.headD_cons, List.tail_cons, le_refl, if_true, if_false, ite_true, ite_false,
        h00, h01, h02]
      simp
    · simp at hlen
    · simp only [decodeCtrl, initCtrl, List.nil_append, hmne, hF1, hF2, hF3,
        List.headD_cons, List.tail_cons, le_refl, if_true, if_false, ite_true, ite_false,
        h00, h01, h02]
      simp
  refine ⟨hfull, ?_⟩
  simp only [handleResponsesRun, hfull]

/-- C10 (witness): a header with no line after the status line, at a
concrete code "10". -/
theorem c10_unpack_valueerror_w :
    decodeCtrl [joinCRLF ((strL "ZOMP/1.0" ++ ' ' :: (strL "10" ++ ' ' :: strL "OK")) :: [])
        ++ sigL] initCtrl
      = ⟨[], .error .valueError, ⟨[], strL "10", strL "OK", [], 0⟩, []⟩
    ∧ handleResponsesRun (strL "z") 1
        ⟨initCtrl, [joinCRLF ((strL "ZOMP/1.0" ++ ' ' :: (strL "10" ++ ' ' :: strL "OK")) :: [])
          ++ sigL], []⟩
      = .crashed .valueError :=
  c10_unpack_valueerror (strL "10") (strL "OK") (strL "z") [] (by decide) (by decide)
    (by decide) (by decide) (by decide) (by decide) (by decide)
    (by intro l hl; exact absurd hl (List.not_mem_nil l)) (by decide)
